import Mathlib

/-!
# Verification of the tennis-booking-finder core against its specification

Shallow embedding of the repository's core (slot model, LTM paginating
adapter, Eversports per-date adapter, blocked-slot reconciliation, price
resolution, aggregation and page-budget derivation) and proofs settling the
frozen claims about it.

Modelling conventions:
* instants (`datetime`) are seconds since the epoch as `Int`; timezones are
  modelled as a fixed offset (absorbed into the epoch origin), so
  `fromtimestamp`/`combine` become affine maps into `Int`;
* prices (`float`) are `Rat`;
* Python dicts are association lists with dict update/insertion-order
  semantics (`Dict.set` replaces in place, appends new keys at the end);
* HTML produced by BeautifulSoup selectors is modelled structurally: each
  adapter's page input is a record holding exactly the attributes and child
  lists the source reads off the soup; an `Option String` attribute is
  `none` when the attribute is absent;
* network effects are explicit inputs: a crawl receives a `site` function
  from request URL to fetched page, and the per-combination fetch outcome
  of the Eversports adapter is an `Option` (with `none` for a request whose
  attempts all failed).
-/

/-- Sum of digit characters as a natural number; `none` when `s` is empty or
holds a non-digit, mirroring the digit core of Python's `int()`. -/
def parseNatDigits (s : List Char) : Option Nat :=
  match s with
  | [] => none
  | _ =>
    if s.all Char.isDigit then
      some (s.foldl (fun acc c => acc * 10 + (c.toNat - '0'.toNat)) 0)
    else
      none

/-- Python `int(text)` on a decimal string: optional sign followed by
digits (the whitespace/underscore liberality of CPython is immaterial to
every claim and not modelled). `none` models `ValueError`. -/
def parseIntPy (s : String) : Option Int :=
  match s.toList with
  | '-' :: rest => (parseNatDigits rest).map (fun n => -(n : Int))
  | '+' :: rest => (parseNatDigits rest).map (fun n => (n : Int))
  | l => (parseNatDigits l).map (fun n => (n : Int))

/-- Python truthiness chain `a or b` on optional strings: an absent or empty
first operand falls through to the second. -/
def pyOrStr (a : Option String) (b : String) : String :=
  match a with
  | some s => if s = "" then b else s
  | none => b

/-- `needle in hay` on Python strings: substring containment. -/
def strContainsSub (hay needle : String) : Bool :=
  decide (needle.toList <:+: hay.toList)

/-- Python `s.lower()` (character-wise, over the code points). -/
def pyLower (s : String) : String :=
  String.mk (s.toList.map Char.toLower)

/-- Python `s.strip()`: drop leading and trailing whitespace. -/
def pyStrip (s : String) : String :=
  String.mk
    (((s.toList.dropWhile Char.isWhitespace).reverse.dropWhile
      Char.isWhitespace).reverse)

/-- Python `s.startswith(pre)`. -/
def pyStartsWith (s pre : String) : Bool :=
  pre.toList.isPrefixOf s.toList

/-- Python `s.replace(a, b)` for single-character needles. -/
def pyReplace (s : String) (a b : Char) : String :=
  String.mk (s.toList.map (fun c => if c = a then b else c))

namespace Dict

variable {κ : Type} [DecidableEq κ] {α : Type}

/-- `d.get(k)` on a Python dict modelled as an association list with unique
keys (all dicts here are built from `[]` through `set`/`update`). -/
def get : List (κ × α) → κ → Option α
  | [], _ => none
  | p :: rest, k => if p.1 = k then some p.2 else get rest k

/-- `k in d`. -/
def contains : List (κ × α) → κ → Bool
  | [], _ => false
  | p :: rest, k => p.1 = k || contains rest k

/-- `d[k] = v`: replaces the value in place for an existing key, appends a
new key at the end — CPython's insertion-order semantics. -/
def set : List (κ × α) → κ → α → List (κ × α)
  | [], k, v => [(k, v)]
  | p :: rest, k, v => if p.1 = k then (k, v) :: rest else p :: set rest k v

/-- `d.pop(k, None)`: drop the entry for `k` when present. -/
def erase : List (κ × α) → κ → List (κ × α)
  | [], _ => []
  | p :: rest, k => if p.1 = k then rest else p :: erase rest k

/-- `d.update(items)` in the iteration order of `items`. -/
def update (d : List (κ × α)) (items : List (κ × α)) : List (κ × α) :=
  items.foldl (fun acc p => set acc p.1 p.2) d

theorem get_set_ne (d : List (κ × α)) (k k' : κ) (v : α)
    (h : k' ≠ k) : get (set d k v) k' = get d k' := by
  induction d with
  | nil => simp [get, set, Ne.symm h]
  | cons p rest ih =>
    by_cases hp : p.1 = k
    · simp [get, set, hp, Ne.symm h, h]
    · by_cases hp' : p.1 = k'
      · simp [get, set, hp, hp', h]
      · simp [get, set, hp, hp', ih]

theorem get_update_not_mem (d : List (κ × α))
    (items : List (κ × α)) (k : κ)
    (h : ∀ p ∈ items, p.1 ≠ k) : get (update d items) k = get d k := by
  induction items generalizing d with
  | nil => rfl
  | cons p rest ih =>
    unfold update
    rw [List.foldl_cons]
    have step : get (set d p.1 p.2) k = get d k := by
      apply get_set_ne
      exact fun hk => (h p (by simp)) hk.symm
    have := ih (set d p.1 p.2) (fun q hq => h q (by simp [hq]))
    unfold update at this
    rw [this, step]

end Dict

/-- The canonical slot record (`models.Slot`); `end` is a Lean keyword, so
the field is named `end_`. -/
structure Slot where
  calendar_id : String
  calendar_label : String
  court_id : String
  court_label : String
  start : Int
  end_ : Int
  duration_minutes : Int
  price_eur : Option Rat
  price_code : Option String
  source_url : String
  provider : Option String := none
  sport : String := "tennis"
  deriving DecidableEq, Repr

namespace Ltm

/-! ## LTM paginating adapter (`sources/ltm.py`)

A fetched page is modelled as the structural content the source reads off
the soup: the `h1` title text, the outputs of `parse_price_map` /
`parse_price_colors` on the page's price boxes and style blocks, the
calendar containers, and the `data-href` of the next-navigation element. -/

def BASE_URL : String := "https://ltm.tennisplatz.info/reservierung"

def SEED_URLS : List String := [BASE_URL, BASE_URL ++ "?c=662"]

/-- One `div.slot` cell: its class list and `data-begin`/`data-size`
attributes (`none` = attribute absent). -/
structure SlotTag where
  classes : List String
  data_begin : Option String
  data_size : Option String
  deriving DecidableEq, Repr

/-- One `.cs-area div.day` body: the court header labels (absent when the
`.day-head .day-courts` element is missing) and the court columns, each a
`data-cid` with its `div.slot` cells. -/
structure DayBody where
  courts_header : Option (List String)
  court_columns : List (String × List SlotTag)
  deriving DecidableEq, Repr

/-- One `div.calendar`: its `data-cid`, the day-header cells' `data-dt`
attributes and the day bodies. -/
structure Calendar where
  data_cid : Option String
  head_days : List (Option String)
  body_days : List DayBody
  deriving DecidableEq, Repr

/-- One fetched page. `nav_data_href` is `none` when the
`.calendar-head .time-nav-right` element is missing, `some none` when it
carries no `data-href`. -/
structure Page where
  h1 : Option String
  price_map : List (String × Rat)
  page_colors : List (String × String)
  calendars : List Calendar
  nav_data_href : Option (Option String)
  deriving Repr

/-- `ltm._build_slot`: availability marker check, epoch start parse,
span parse with clamp to 1 hourly block, price attachment. -/
def build_slot (tag : SlotTag) (court_id court_label calendar_id
    calendar_label : String) (day_start : Option Int)
    (price_map : List (String × Rat)) (source_url : String) : Option Slot :=
  let classes := tag.classes.filter (fun c => c ≠ "slot")
  if ¬ classes.contains "av" then none
  else
    match tag.data_begin with
    | none => none
    | some start_raw =>
      if start_raw = "" then none
      else
        match parseIntPy start_raw with
        | none => none
        | some t =>
          let span_raw := pyOrStr tag.data_size "1"
          let duration_blocks : Int :=
            match parseIntPy span_raw with
            | some n => max n 1
            | none => 1
          let price_code := classes.find?
            (fun c => pyStartsWith c "price" && c ≠ "price")
          some { calendar_id := calendar_id
                 calendar_label := calendar_label
                 court_id := court_id
                 court_label := court_label
                 start := t
                 end_ := t + 3600 * duration_blocks
                 duration_minutes := duration_blocks * 60
                 price_eur := price_code.bind (fun c => Dict.get price_map c)
                 price_code := price_code
                 source_url := source_url
                 provider := some "ltm" }

/-- `ltm._parse_day_slots`: align court labels with court columns by
zipping to the shorter length, then build each cell's slot. -/
def parse_day_slots (head_dt : Option String) (body : DayBody)
    (price_map : List (String × Rat)) (calendar_id calendar_label
    source_url : String) : List Slot :=
  let day_start : Option Int :=
    match head_dt with
    | some raw =>
      if raw ≠ "" ∧ raw.toList.all Char.isDigit then
        (parseNatDigits raw.toList).map (fun n => (n : Int))
      else none
    | none => none
  match body.courts_header with
  | none => []
  | some labels =>
    (labels.zip body.court_columns).flatMap
      (fun lc =>
        lc.2.2.filterMap
          (fun tag => build_slot tag lc.2.1 lc.1 calendar_id calendar_label
            day_start price_map source_url))

/-- `ltm.parse_available_slots`: empty head or body day list yields
nothing; otherwise days are zipped positionally. -/
def parse_available_slots (cal : Calendar)
    (price_map : List (String × Rat)) (calendar_label source_url : String) :
    List Slot :=
  let calendar_id := cal.data_cid.getD "unknown"
  if cal.head_days = [] ∨ cal.body_days = [] then []
  else
    (cal.head_days.zip cal.body_days).flatMap
      (fun hb => parse_day_slots hb.1 hb.2 price_map calendar_id
        calendar_label source_url)

/-- `ltm.extract_next_href`: requires the nav element, a non-empty
`data-href` whose strip is non-empty and which is not `"#"`. -/
def extract_next_href (nav : Option (Option String)) : Option String :=
  match nav with
  | none => none
  | some hrefAttr =>
    match hrefAttr with
    | none => none
    | some href =>
      if href ≠ "" ∧ pyStrip href ≠ "" ∧ href ≠ "#" then some (pyStrip href)
      else none

/-- `urllib.parse.urljoin(BASE_URL, rel)` specialised to the fixed
`BASE_URL` (scheme-absolute hrefs pass through; query-only hrefs append;
rooted and relative paths resolve against the base's directory `/`). -/
def urljoin (base rel : String) : String :=
  if pyStartsWith rel "http://" || pyStartsWith rel "https://" then rel
  else if pyStartsWith rel "?" then base ++ rel
  else if pyStartsWith rel "/" then "https://ltm.tennisplatz.info" ++ rel
  else "https://ltm.tennisplatz.info/" ++ rel

/-- The two cross-page price maps of `ltm.fetch_slots`: the global
code-to-value map and the current seed's colour-to-value map. -/
structure PriceState where
  price_lookup : List (String × Rat)
  color_price_map : List (String × Rat)
  deriving Repr

/-- The page-local `page_color_price` side map: for each price-box code in
dict order that also has a colour, record value under the colour — first
code wins per colour. -/
def build_page_color_price (price_map : List (String × Rat))
    (page_colors : List (String × String)) : List (String × Rat) :=
  price_map.foldl
    (fun acc p =>
      match Dict.get page_colors p.1 with
      | some color =>
        if color ≠ "" ∧ ¬ Dict.contains acc color then Dict.set acc color p.2
        else acc
      | none => acc) []

/-- The colour-resolution loop of `ltm.fetch_slots`: codes already in
`price_lookup` are skipped; otherwise resolve via the page side map, then
the seed's accumulated colour map. -/
def resolve_color_codes (price_lookup : List (String × Rat))
    (page_color_price color_price_map : List (String × Rat))
    (page_colors : List (String × String)) : List (String × Rat) :=
  page_colors.foldl
    (fun lookup cc =>
      if Dict.contains lookup cc.1 then lookup
      else
        match Dict.get page_color_price cc.2 with
        | some v => Dict.set lookup cc.1 v
        | none =>
          match Dict.get color_price_map cc.2 with
          | some v => Dict.set lookup cc.1 v
          | none => lookup) price_lookup

/-- The per-page price bookkeeping of `ltm.fetch_slots` (lines 254-274):
unconditional `price_lookup.update(price_map)`, then — when the page has
colour rules — the side-map build, seed-map update and colour resolution. -/
def process_page_prices (st : PriceState) (price_map : List (String × Rat))
    (page_colors : List (String × String)) : PriceState :=
  let lookup :=
    if price_map ≠ [] then Dict.update st.price_lookup price_map
    else st.price_lookup
  if page_colors = [] then
    { price_lookup := lookup, color_price_map := st.color_price_map }
  else
    let pcp := build_page_color_price price_map page_colors
    let cpm := Dict.update st.color_price_map pcp
    { price_lookup := resolve_color_codes lookup pcp cpm page_colors
      color_price_map := cpm }

/-- Crawl state threaded through `ltm.fetch_slots`; `fetched` records the
resolved URL of every page fetched in the current seed's loop. -/
structure CrawlState where
  slots : List Slot
  seen : List String
  price_lookup : List (String × Rat)
  color_price_map : List (String × Rat)
  fetched : List String
  deriving Repr

/-- The `for page_index in range(pages)` loop of `ltm.fetch_slots` for one
seed. `site` maps a request URL to the fetched page and its resolved URL.
The `fuel` argument is the remaining page budget, so termination is by
construction — exactly as in the source's bounded `range` loop. -/
def seed_loop (site : String → Page × String) (url : String)
    (st : CrawlState) : Nat → CrawlState
  | 0 => st
  | fuel + 1 =>
    if st.seen.contains url then st
    else
      let fetched := site url
      let page := fetched.1
      let resolved := fetched.2
      let calendar_label := page.h1.getD "Tennis Booking"
      let ps := process_page_prices
        { price_lookup := st.price_lookup
          color_price_map := st.color_price_map }
        page.price_map page.page_colors
      let newSlots := page.calendars.flatMap
        (fun cal => parse_available_slots cal ps.price_lookup calendar_label
          resolved)
      let st' : CrawlState :=
        { slots := st.slots ++ newSlots
          seen := st.seen ++ [resolved]
          price_lookup := ps.price_lookup
          color_price_map := ps.color_price_map
          fetched := st.fetched ++ [resolved] }
      match extract_next_href page.nav_data_href with
      | none => st'
      | some nextHref =>
        let absolute_next := urljoin BASE_URL nextHref
        if st'.seen.contains absolute_next then st'
        else seed_loop site absolute_next st' fuel

/-- `ltm.fetch_slots`: crawl every seed with the shared visited set and
global price map; the colour map is fresh per seed
(`color_price_by_seed.setdefault(seed, {})`, the seeds being distinct). -/
def fetch_slots (site : String → Page × String) (pages : Nat) : List Slot :=
  (SEED_URLS.foldl
    (fun st seed =>
      seed_loop site seed
        { st with color_price_map := [], fetched := [] } pages)
    { slots := [], seen := [], price_lookup := [], color_price_map := []
      fetched := [] }).slots

end Ltm

/-! ## Calendar dates and clock times (shared by the Eversports adapter
and the page-budget planner) -/

/-- A calendar date (`datetime.date`). -/
structure YMD where
  year : Int
  month : Int
  day : Int
  deriving DecidableEq, Repr

def isLeapYear (y : Int) : Bool :=
  (y % 4 == 0 && y % 100 != 0) || y % 400 == 0

def daysInMonth (y m : Int) : Int :=
  if m = 1 ∨ m = 3 ∨ m = 5 ∨ m = 7 ∨ m = 8 ∨ m = 10 ∨ m = 12 then 31
  else if m = 4 ∨ m = 6 ∨ m = 9 ∨ m = 11 then 30
  else if isLeapYear y then 29 else 28

/-- `datetime.strptime(s, "%Y-%m-%d").date()` on the canonical zero-padded
form: exactly `YYYY-MM-DD` with in-range month and day-of-month. `none`
models `ValueError`. -/
def parseDateYMD (s : String) : Option YMD :=
  match s.toList with
  | [y1, y2, y3, y4, '-', m1, m2, '-', d1, d2] =>
    if [y1, y2, y3, y4, m1, m2, d1, d2].all Char.isDigit then
      let num := fun (cs : List Char) =>
        (cs.foldl (fun acc c => acc * 10 + (c.toNat - '0'.toNat)) 0 : Int)
      let y := num [y1, y2, y3, y4]
      let m := num [m1, m2]
      let d := num [d1, d2]
      if 1 ≤ m ∧ m ≤ 12 ∧ 1 ≤ d ∧ d ≤ daysInMonth y m then
        some ⟨y, m, d⟩
      else none
    else none
  | _ => none

/-- Left-pad the decimal form of a non-negative integer to `w` digits. -/
def padNum (w : Nat) (n : Int) : String :=
  let s := toString n
  if s.length < w then String.mk (List.replicate (w - s.length) '0') ++ s
  else s

/-- `date.isoformat()`. -/
def YMD.isoformat (d : YMD) : String :=
  padNum 4 d.year ++ "-" ++ padNum 2 d.month ++ "-" ++ padNum 2 d.day

/-- Days since the epoch (1970-01-01) of a civil date — the standard
days-from-civil computation, giving `datetime.date` subtraction and
`datetime.combine` an exact model. -/
def YMD.toEpochDays (date : YMD) : Int :=
  let y := date.year - (if date.month ≤ 2 then 1 else 0)
  let era := (if 0 ≤ y then y else y - 399) / 400
  let yoe := y - era * 400
  let doy := (153 * (date.month + (if 2 < date.month then -3 else 9)) + 2) / 5
    + date.day - 1
  let doe := yoe * 365 + yoe / 4 - yoe / 100 + doy
  era * 146097 + doe - 719468

/-- `eversports._time_str_to_minutes`: a four-character string split into
two `int()` calls, no range validation; `none` models the length guard and
`ValueError`. -/
def timeStrToMinutes (s : String) : Option Int :=
  if s = "" ∨ s.length ≠ 4 then none
  else
    match parseIntPy (String.mk (s.toList.take 2)),
      parseIntPy (String.mk (s.toList.drop 2)) with
    | some h, some m => some (h * 60 + m)
    | _, _ => none

/-- `datetime.strptime(raw, "%H%M").time()` on four-digit input, as minutes
of day: unlike `_time_str_to_minutes` this validates hour and minute
ranges. (CPython would also accept a three-digit string; no claim touches
that case.) -/
def parseTimeHHMM (s : String) : Option Int :=
  match s.toList with
  | [h1, h2, m1, m2] =>
    if [h1, h2, m1, m2].all Char.isDigit then
      let num := fun (a b : Char) =>
        ((a.toNat - '0'.toNat) * 10 + (b.toNat - '0'.toNat) : Nat)
      let hh := num h1 h2
      let mm := num m1 m2
      if hh ≤ 23 ∧ mm ≤ 59 then some ((hh * 60 + mm : Nat) : Int) else none
    else none
  | _ => none

/-- Python `float(text)` on a plain decimal string: optional sign, digits
around an optional decimal point (scientific notation and specials are
immaterial to every claim). `none` models `ValueError`. -/
def parseFloatPy (s : String) : Option Rat :=
  let signed := fun (l : List Char) =>
    match l with
    | '-' :: r => ((-1 : Rat), r)
    | '+' :: r => ((1 : Rat), r)
    | r => ((1 : Rat), r)
  let p := signed s.toList
  let body := p.2
  let intPart := body.takeWhile (fun c => c ≠ '.')
  let rest := body.dropWhile (fun c => c ≠ '.')
  let mkNat := fun (cs : List Char) =>
    (cs.foldl (fun acc c => acc * 10 + (c.toNat - '0'.toNat)) 0 : Int)
  match rest with
  | [] =>
    match parseNatDigits intPart with
    | some n => some (p.1 * n)
    | none => none
  | '.' :: fracPart =>
    if intPart.all Char.isDigit ∧ fracPart.all Char.isDigit
        ∧ (intPart ≠ [] ∨ fracPart ≠ []) then
      some (p.1 * ((mkNat intPart : Rat)
        + (mkNat fracPart : Rat) / ((10 : Rat) ^ fracPart.length)))
    else none
  | _ => none

namespace Ev

/-! ## Eversports per-date adapter (`sources/eversports.py`) -/

/-- `eversports.SportMeta`. -/
structure SportMeta where
  id : String
  slug : String
  name : String
  uuid : String
  deriving DecidableEq, Repr

/-- `eversports.FacilityConfig`. -/
structure FacilityConfig where
  id : String
  slug : String
  label : String
  booking_url : String
  sports : List SportMeta
  deriving DecidableEq, Repr

def tennisSport : SportMeta :=
  { id := "433", slug := "tennis", name := "Tennis"
    uuid := "b38729e9-69de-11e8-bdc6-02bd505aa7b2" }

def FACILITIES : List FacilityConfig :=
  [ { id := "12886", slug := "vienna-sporthotel", label := "Vienna Sporthotel"
      booking_url := "https://www.eversports.at/sb/vienna-sporthotel"
      sports := [tennisSport] },
    { id := "12782", slug := "tennis-point-vienna-ej5tqupn"
      label := "Tennis Point Vienna"
      booking_url := "https://www.eversports.at/sb/tennis-point-vienna-ej5tqupn"
      sports := [tennisSport] },
    { id := "80214"
      slug := "kultur-und-sportvereinigung-der-wiener-gemeindebediensteten"
      label := "KSV Wiener Gemeindebedienstete"
      booking_url := "https://www.eversports.at/sb/kultur-und-sportvereinigung-der-wiener-gemeindebediensteten"
      sports := [
        { id := "1747", slug := "tennis-outdoor", name := "Tennis outdoor"
          uuid := "b389170d-69de-11e8-bdc6-02bd505aa7b2" },
        { id := "1748", slug := "tennis-indoor", name := "Tennis indoor"
          uuid := "b38917a8-69de-11e8-bdc6-02bd505aa7b2" }] } ]

def AVAILABLE_STATES : List String := ["free", "open"]

def BUSY_TOKENS : List String :=
  ["occupied", "booked", "blocked", "reserved", "besetzt", "belegt",
   "geschlossen", "abo"]

/-- One `td[data-state]` slot cell (the selector guarantees `data-state`
is present; the remaining attributes are optional). -/
structure Cell where
  data_state : String
  data_original_title : Option String
  title : Option String
  aria_label : Option String
  data_start : Option String
  data_end : Option String
  data_price : Option String
  data_rate : Option String
  data_open : Option String
  deriving DecidableEq, Repr

/-- The first `td` of a `tr.court` row: stripped text plus court ids. -/
structure HeaderCell where
  text : String
  data_court : Option String
  data_court_uuid : Option String
  deriving DecidableEq, Repr

/-- One `tr.court` row. -/
structure CourtRow where
  header : Option HeaderCell
  data_area : Option String
  cells : List Cell
  deriving DecidableEq, Repr

/-- One `tbody[data-date]` day group. -/
structure DayBlock where
  data_date : Option String
  rows : List CourtRow
  deriving DecidableEq, Repr

/-- The tooltip chain
`data-original-title or title or aria-label or ""`, stripped and
lowercased. -/
def tooltipOf (c : Cell) : String :=
  pyLower (pyStrip (pyOrStr c.data_original_title
    (pyOrStr c.title (pyOrStr c.aria_label ""))))

/-- A decoded JSON value (`response.json()` of the blocked-slot feed). -/
inductive Json where
  | jnull : Json
  | jbool : Bool → Json
  | jnum : Int → Json
  | jstr : String → Json
  | jarr : List Json → Json
  | jobj : List (String × Json) → Json

/-- Python truthiness of a decoded JSON value. -/
def jsonFalsy : Json → Bool
  | .jnull => true
  | .jbool b => !b
  | .jnum n => n == 0
  | .jstr s => s == ""
  | .jarr xs => xs.isEmpty
  | .jobj fs => fs.isEmpty

/-- Whether `hash(value)` succeeds (containers are unhashable). -/
def jsonHashable : Json → Bool
  | .jarr _ => false
  | .jobj _ => false
  | _ => true

/-- Python `str(value)` on a decoded JSON value (the `repr`-style rendering
of containers is abbreviated; no claim depends on it). -/
def pyStr : Json → String
  | .jstr s => s
  | .jnum n => toString n
  | .jbool b => if b then "True" else "False"
  | .jnull => "None"
  | .jarr _ => "<list repr>"
  | .jobj _ => "<dict repr>"

/-- A blocked-feed triple as stored in the `blocked` set. The first
component is the entry's `date` value: `some s` when it is a string,
`none` for any other hashable value — such a value never compares equal to
the string day key `_is_blocked` probes with, so membership semantics are
preserved exactly. -/
abbrev BlockedTriple : Type := Option String × Int × String

/-- `_time_str_to_minutes(entry.get("start", ""))` on an arbitrary decoded
JSON value. A string argument follows `timeStrToMinutes`; a falsy value
returns `None` through the `not raw` guard; any other non-string reaches
`len(raw)` / `int(raw[:2])` and raises `TypeError`, which the source does
not catch. -/
def timeFieldToMinutes : Json → Except String (Option Int)
  | .jstr s => .ok (timeStrToMinutes s)
  | .jnull => .ok none
  | .jbool b => if b then .error "TypeError: bool has no len" else .ok none
  | .jnum n =>
    if n = 0 then .ok none else .error "TypeError: int has no len"
  | .jarr xs =>
    if xs.isEmpty then .ok none
    else if xs.length ≠ 4 then .ok none
    else .error "TypeError: int() argument is a list"
  | .jobj fs =>
    if fs.isEmpty then .ok none
    else if fs.length ≠ 4 then .ok none
    else .error "TypeError: unhashable slice of dict"

/-- The entry loop of `_fetch_blocked_slots`: non-dict entries are skipped;
the `start` field is converted first (possibly raising), entries with a
missing start/court or falsy date are skipped, and adding a triple with an
unhashable date raises. -/
def addBlockedEntries : List Json → List BlockedTriple →
    Except String (List BlockedTriple)
  | [], acc => .ok acc
  | e :: rest, acc =>
    match e with
    | .jobj fields =>
      match timeFieldToMinutes ((Dict.get fields "start").getD (.jstr "")) with
      | .error msg => .error msg
      | .ok startMin? =>
        let court : Option Json :=
          match Dict.get fields "court" with
          | some .jnull => none
          | x => x
        let datev := (Dict.get fields "date").getD .jnull
        match startMin?, court with
        | some sm, some c =>
          if jsonFalsy datev then addBlockedEntries rest acc
          else if jsonHashable datev then
            let dateKey : Option String :=
              match datev with
              | .jstr s => some s
              | _ => none
            addBlockedEntries rest (acc ++ [(dateKey, sm, pyStr c)])
          else .error "TypeError: unhashable date"
        | _, _ => addBlockedEntries rest acc
    | _ => addBlockedEntries rest acc

/-- The `slot_entries` extraction of `_fetch_blocked_slots`: the payload's
`slots` list when the payload is a dict holding a list there, else `[]`. -/
def slotEntriesOf (payload : Json) : List Json :=
  match payload with
  | .jobj fields =>
    match Dict.get fields "slots" with
    | some (.jarr xs) => xs
    | _ => []
  | _ => []

/-- `eversports._fetch_blocked_slots`. `response` is the decoded feed
payload, `none` when the request or JSON decode failed (the `except`
branch returning the empty set). The entry loop sits outside that
`try`/`except`, so its `TypeError`s escape — modelled by `Except.error`. -/
def fetch_blocked_slots (court_ids : List String) (response : Option Json) :
    Except String (List BlockedTriple) :=
  if court_ids.isEmpty then .ok []
  else
    match response with
    | none => .ok []
    | some payload => addBlockedEntries (slotEntriesOf payload) []

/-- The `while current < end_minutes` probe loop of
`eversports._is_blocked`, stepping 30 minutes at a time; `fuel` bounds the
recursion and is chosen large enough in `is_blocked` that it never runs
out before `current` reaches `end_minutes`. -/
def blockedProbe (blocked : List BlockedTriple) (day_key court_key : String)
    (e : Int) : Nat → Int → Bool
  | 0, _ => false
  | n + 1, cur =>
    if cur < e then
      if (some day_key, cur, court_key) ∈ blocked then true
      else blockedProbe blocked day_key court_key e n (cur + 30)
    else false

/-- `eversports._is_blocked`: parse both times with
`_time_str_to_minutes` (unparsable → not blocked), then probe every
30-minute offset aligned to the candidate's start. -/
def is_blocked (blocked : List BlockedTriple) (day_date : YMD)
    (court_key start_raw end_raw : String) : Bool :=
  match timeStrToMinutes start_raw, timeStrToMinutes end_raw with
  | some s, some e =>
    blockedProbe blocked day_date.isoformat court_key e ((e - s).toNat + 1) s
  | _, _ => false

end Ev

namespace Ev

/-- `eversports._build_slot`: the final per-slot validity re-check and
construction. -/
def build_slot (cell : Cell) (day_date : YMD)
    (court_label court_id calendar_label : String)
    (facility : FacilityConfig) (sport : SportMeta) : Option Slot :=
  let state := pyLower (pyStrip cell.data_state)
  if ¬ AVAILABLE_STATES.contains state then none
  else
    let tooltip := tooltipOf cell
    if pyStartsWith tooltip "occupied" then none
    else if tooltip ≠ ""
        ∧ ¬ (["free", "frei", "open"].any (fun t => strContainsSub tooltip t))
      then none
    else
      let start_raw := cell.data_start.getD ""
      let end_raw := cell.data_end.getD ""
      if start_raw = "" ∨ end_raw = "" then none
      else
        match parseTimeHHMM start_raw, parseTimeHHMM end_raw with
        | some smin, some emin =>
          let start_dt := day_date.toEpochDays * 86400 + smin * 60
          let endCombined := day_date.toEpochDays * 86400 + emin * 60
          let end_dt :=
            if endCombined ≤ start_dt then endCombined + 86400
            else endCombined
          let duration_minutes := (end_dt - start_dt) / 60
          let price_value : Option Rat :=
            match cell.data_price with
            | some p =>
              if p = "" then none else parseFloatPy (pyReplace p ',' '.')
            | none => none
          let price_code := cell.data_rate
          if ¬ (cell.data_open = some "data-open" ∨ cell.data_open = some "true")
            then none
          else if (price_value = none ∨ price_value = some 0) ∧ tooltip ≠ ""
              ∧ ¬ (["free", "frei", "open"].any
                (fun t => strContainsSub tooltip t)) then none
          else
            some { calendar_id := facility.id
                   calendar_label := pyOrStr (some calendar_label)
                     (pyOrStr (some sport.name) facility.label)
                   court_id := court_id
                   court_label := court_label
                   start := start_dt
                   end_ := end_dt
                   duration_minutes := duration_minutes
                   price_eur := price_value
                   price_code := price_code
                   source_url := facility.booking_url
                   provider := some "eversports"
                   sport := "tennis" }
        | _, _ => none

/-- Key of the per-row candidate dict: `(court_key, data-start, data-end)`. -/
abbrev RowKey : Type := String × String × String

/-- The per-row cell scan of `_parse_calendar_html`: a busy cell retracts
any prior candidate with the same `(court, start, end)` key
(last-busy-wins); an available cell becomes a candidate unless its key was
already seen busy or as a candidate. -/
def scanRowCells (court_key : String) (cells : List Cell) :
    List (RowKey × Cell) × List RowKey :=
  cells.foldl
    (fun st cell =>
      let key : RowKey :=
        (court_key, cell.data_start.getD "", cell.data_end.getD "")
      let state := pyLower (pyStrip cell.data_state)
      let tooltip := tooltipOf cell
      let is_busy_state := state ≠ "" ∧ ¬ AVAILABLE_STATES.contains state
      let is_busy_tooltip :=
        BUSY_TOKENS.any (fun t => strContainsSub tooltip t)
      if is_busy_state ∨ is_busy_tooltip then
        (Dict.erase st.1 key, if key ∈ st.2 then st.2 else st.2 ++ [key])
      else if key ∈ st.2 ∨ Dict.contains st.1 key then st
      else (st.1 ++ [(key, cell)], st.2))
    ([], [])

/-- `eversports._parse_calendar_html`. -/
def parse_calendar_html (days : List DayBlock) (fallback_date : YMD)
    (blocked_slots : List BlockedTriple) (facility : FacilityConfig)
    (sport : SportMeta) : List Slot :=
  days.flatMap fun day =>
    let day_str := pyOrStr day.data_date fallback_date.isoformat
    let day_date := (parseDateYMD day_str).getD fallback_date
    day.rows.flatMap fun row =>
      match row.header with
      | none => []
      | some h =>
        let court_label := h.text
        let court_id := h.data_court.getD ""
        let court_uuid := h.data_court_uuid.getD ""
        let calendar_label :=
          pyOrStr row.data_area (pyOrStr (some sport.name) facility.label)
        let court_key :=
          pyOrStr (some court_id) (pyOrStr (some court_uuid) court_label)
        let candidates := (scanRowCells court_key row.cells).1
        candidates.filterMap fun kc =>
          if is_blocked blocked_slots day_date court_key kc.1.2.1 kc.1.2.2
            then none
          else build_slot kc.2 day_date court_label
            (pyOrStr (some court_id) court_uuid) calendar_label facility sport

/-- `eversports._extract_court_ids` (insertion-ordered set of the court
identifiers found on header cells carrying a court attribute). -/
def extract_court_ids (days : List DayBlock) : List String :=
  (days.flatMap fun day =>
    day.rows.filterMap fun row =>
      match row.header with
      | none => none
      | some h =>
        if h.data_court = none ∧ h.data_court_uuid = none then none
        else
          let v := pyOrStr h.data_court (pyOrStr h.data_court_uuid "")
          if v = "" then none else some v).foldl
    (fun acc x => if acc.contains x then acc else acc ++ [x]) []

/-- The parsed content behind one `(facility, date, sport)` calendar
request: the day groups of the returned table and the decoded blocked-feed
response (`none` when that request or its JSON decode failed). -/
structure ComboPage where
  days : List DayBlock
  blocked_response : Option Json

/-- `list(dict.fromkeys(...))`: order-preserving dedup. -/
def dedupDates (l : List YMD) : List YMD :=
  l.foldl (fun acc x => if acc.contains x then acc else acc ++ [x]) []

/-- `eversports.fetch_slots`. `outcome` gives, per
`(facility, date, sport)` combination, the content of the attempt that
succeeded (`none` when every attempt failed — Cloudflare challenge, 403
after retries, other HTTP error, or any exception, all of which the source
catches and turns into "no slots from this combination"). A blocked-feed
entry loop that raises is likewise caught by that outer handler, so the
combination contributes nothing. Deduplication by
`(calendar_id, court_id, start)` runs across all combinations. -/
def fetch_slots (today : YMD) (dates : Option (List YMD))
    (outcome : FacilityConfig → YMD → SportMeta → Option ComboPage) :
    List Slot :=
  let target_dates := dedupDates
    (match dates with
     | some (d :: ds) => d :: ds
     | _ => [today])
  (FACILITIES.foldl
    (fun acc facility =>
      target_dates.foldl
        (fun acc current_date =>
          facility.sports.foldl
            (fun (acc : List Slot × List (String × String × Int)) sport =>
              match outcome facility current_date sport with
              | none => acc
              | some page =>
                let court_ids := extract_court_ids page.days
                match fetch_blocked_slots court_ids page.blocked_response with
                | .error _ => acc
                | .ok blocked =>
                  (parse_calendar_html page.days current_date blocked
                      facility sport).foldl
                    (fun acc slot =>
                      let key := (slot.calendar_id, slot.court_id, slot.start)
                      if acc.2.contains key then acc
                      else (acc.1 ++ [slot], acc.2 ++ [key])) acc)
            acc)
        acc)
    ([], [])).1

end Ev

/-! ## Aggregator (`sources/__init__.py`) and app-level planning (`app.py`) -/

/-- Civil date of a day count since the epoch — inverse of
`YMD.toEpochDays` (standard civil-from-days computation). -/
def YMD.fromEpochDays (z0 : Int) : YMD :=
  let z := z0 + 719468
  let era := (if 0 ≤ z then z else z - 146096) / 146097
  let doe := z - era * 146097
  let yoe := (doe - doe / 1460 + doe / 36524 - doe / 146096) / 365
  let y := yoe + era * 400
  let doy := doe - (365 * yoe + yoe / 4 - yoe / 100)
  let mp := (5 * doy + 2) / 153
  let d := doy - (153 * mp + 2) / 5 + 1
  let m := mp + (if mp < 10 then 3 else -9)
  ⟨y + (if m ≤ 2 then 1 else 0), m, d⟩

/-- `date + timedelta(days=n)`. -/
def YMD.addDays (d : YMD) (n : Int) : YMD :=
  YMD.fromEpochDays (d.toEpochDays + n)

/-- Modelled from the spec: the padel provider adapter
(`sources/padeldome.py` is imported by the aggregator but is not among the
repository's source files). Per §3 of the spec its output consists of
canonical Slot records obeying the model invariant `end > start`, and per
§4.4 the aggregator's sport filter its records carry the `"padel"` sport
tag when produced for the padel path. Only the invariant is needed here. -/
def padeldome_output_ok (slots : List Slot) : Prop :=
  ∀ s ∈ slots, s.start < s.end_

/-- `sources.collect_slots`: run the sport's adapters, then keep slots
whose `end` is strictly after `now` and whose sport tag matches. The LTM
site function and the Eversports per-combination outcomes stand for the
network; `padelSlots` is the (spec-modelled) padel adapter output. -/
def collect_slots (site : String → Ltm.Page × String) (pages : Nat)
    (evOutcome : Ev.FacilityConfig → YMD → Ev.SportMeta → Option Ev.ComboPage)
    (padelSlots : List Slot) (today : YMD) (now : Int)
    (dates : Option (List YMD)) (sport : String) : List Slot :=
  let slots :=
    if sport = "tennis" then
      let target_dates : Option (List YMD) :=
        match dates with
        | some ds => some ds
        | none =>
          let horizon_days : Nat := max 1 (min (pages * 4) 14)
          some ((List.range horizon_days).map
            (fun offset => today.addDays offset))
      Ltm.fetch_slots site pages ++ Ev.fetch_slots today target_dates evOutcome
    else if sport = "padel" then padelSlots
    else []
  slots.filter (fun s => decide (now < s.end_) && decide (s.sport = sport))

/-- The `diffs` list built by `app.determine_pages`: per parseable date
string, its non-negative day offset from today. -/
def page_diffs (ds : List String) (today : YMD) : List Int :=
  ds.filterMap
    (fun date_str =>
      match parseDateYMD date_str with
      | none => none
      | some target =>
        let diff := target.toEpochDays - today.toEpochDays
        if 0 ≤ diff then some diff else none)

/-- `app.determine_pages`: unparsable dates are skipped, past dates are
dropped, and the page budget is `max_diff // 4 + 1` (at least 1). -/
def determine_pages (filter_dates : Option (List String)) (today : YMD) :
    Int :=
  match filter_dates with
  | none => 1
  | some [] => 1
  | some ds =>
    match page_diffs ds today with
    | [] => 1
    | d :: rest => max 1 ((rest.foldl max d) / 4 + 1)

/-- `slot.start.strftime("%Y-%m-%d")` of an instant. -/
def strftimeDate (t : Int) : String :=
  (YMD.fromEpochDays (Int.fdiv t 86400)).isoformat

/-- The sort key of `app.load_slots` line 103:
`(slot.start, slot.court_label, slot.calendar_id, slot.court_id)` under
lexicographic tuple comparison. Python compares strings by code points,
which is exactly the lexicographic order on their character lists. -/
def slotKey (s : Slot) :
    Lex (Int × Lex (List Char × Lex (List Char × List Char))) :=
  toLex (s.start, toLex (s.court_label.toList,
    toLex (s.calendar_id.toList, s.court_id.toList)))

/-- Python tuple `<=` on the sort keys. -/
def slotKeyLE (a b : Slot) : Prop :=
  slotKey a ≤ slotKey b

instance : DecidableRel slotKeyLE := by
  unfold slotKeyLE
  infer_instance

instance : IsTotal Slot slotKeyLE :=
  ⟨fun a b => le_total (slotKey a) (slotKey b)⟩

instance : IsTrans Slot slotKeyLE :=
  ⟨fun _ _ _ hab hbc => le_trans hab hbc⟩

/-- The post-aggregation steps of `app.load_slots`: the optional explicit
date filter (line 95-101), then the stable in-place sort by
`(start, court_label, calendar_id, court_id)` (line 103). -/
def load_slots_post (slots : List Slot) (filter_dates : Option (List String)) :
    List Slot :=
  let filtered :=
    match filter_dates with
    | none => slots
    | some [] => slots
    | some fd => slots.filter (fun s => fd.contains (strftimeDate s.start))
  List.insertionSort slotKeyLE filtered

/-! ## Support lemmas -/

/-- Every slot `ltm._build_slot` emits spans at least one hourly block:
`end = start + 3600·blocks` with `blocks ≥ 1`. -/
theorem Ltm.build_slot_valid (tag : Ltm.SlotTag)
    (court_id court_label calendar_id calendar_label : String)
    (day_start : Option Int) (price_map : List (String × Rat))
    (source_url : String) (s : Slot)
    (h : Ltm.build_slot tag court_id court_label calendar_id calendar_label
      day_start price_map source_url = some s) :
    s.start < s.end_ ∧ 60 ≤ s.duration_minutes ∧ 60 ∣ s.duration_minutes
      ∧ s.end_ = s.start + 60 * s.duration_minutes
      ∧ s.provider = some "ltm" ∧ s.sport = "tennis" := by
  simp only [Ltm.build_slot] at h
  split at h
  · exact absurd h (by simp)
  · split at h
    · exact absurd h (by simp)
    · split at h
      · exact absurd h (by simp)
      · split at h
        · exact absurd h (by simp)
        · simp only [Option.some.injEq] at h
          subst h
          set b : Int := (match parseIntPy (pyOrStr tag.data_size "1") with
            | some n => max n 1
            | none => 1) with hb
          have hb1 : (1 : Int) ≤ b := by
            rw [hb]
            split
            · exact le_max_right _ _
            · exact le_refl 1
          refine ⟨by simp only; nlinarith, by simp only; nlinarith,
            ⟨b, by simp only; ring⟩, by simp only; ring, rfl, rfl⟩

/-- The emitted/dropped status of `ltm._build_slot` ignores `data-size`:
missing, malformed or small spans all default or clamp to one block. -/
theorem Ltm.build_slot_isSome_size (tag : Ltm.SlotTag)
    (court_id court_label calendar_id calendar_label : String)
    (day_start : Option Int) (price_map : List (String × Rat))
    (source_url : String) (ds1 ds2 : Option String) :
    (Ltm.build_slot { tag with data_size := ds1 } court_id court_label
      calendar_id calendar_label day_start price_map source_url).isSome
    = (Ltm.build_slot { tag with data_size := ds2 } court_id court_label
      calendar_id calendar_label day_start price_map source_url).isSome := by
  simp only [Ltm.build_slot]
  split
  · rfl
  · split
    · rfl
    · split
      · rfl
      · split
        · rfl
        · rfl

/-! ## Claim C10 -/

/-- C10: In `ltm._build_slot`, a missing, non-integer, or less-than-1
`data-size` never raises (the embedding is total and models the caught
`ValueError`) and never causes an otherwise-available slot to be dropped —
whether a slot is emitted is independent of `data-size` — and every
emitted slot has `duration_minutes` a positive multiple of 60 (at least
60) with `end = start + duration_minutes` minutes. -/
theorem ltm_build_slot_size_safe (tag : Ltm.SlotTag)
    (court_id court_label calendar_id calendar_label : String)
    (day_start : Option Int) (price_map : List (String × Rat))
    (source_url : String) :
    (∀ s, Ltm.build_slot tag court_id court_label calendar_id calendar_label
        day_start price_map source_url = some s →
      60 ≤ s.duration_minutes ∧ 60 ∣ s.duration_minutes
        ∧ 0 < s.duration_minutes
        ∧ s.end_ = s.start + 60 * s.duration_minutes)
    ∧ (∀ ds1 ds2,
      (Ltm.build_slot { tag with data_size := ds1 } court_id court_label
        calendar_id calendar_label day_start price_map source_url).isSome
      = (Ltm.build_slot { tag with data_size := ds2 } court_id court_label
        calendar_id calendar_label day_start price_map source_url).isSome) := by
  constructor
  · intro s h
    obtain ⟨-, h60, hdvd, heq, -, -⟩ := Ltm.build_slot_valid tag court_id
      court_label calendar_id calendar_label day_start price_map source_url s h
    exact ⟨h60, hdvd, by omega, heq⟩
  · intro ds1 ds2
    exact Ltm.build_slot_isSome_size tag court_id court_label calendar_id
      calendar_label day_start price_map source_url ds1 ds2

/-- Witness for C10 at a concrete cell: `data-size="-5"` clamps to one
60-minute block, and a malformed `data-size="abc"` leaves the
emitted/dropped status identical to a missing `data-size`. -/
theorem ltm_build_slot_size_safe_witness :
    ((60 : Int) ≤ 60 ∧ (60 : Int) ∣ 60 ∧ (0 : Int) < 60
      ∧ (4600 : Int) = 1000 + 60 * 60)
    ∧ (Ltm.build_slot ⟨["slot", "av"], some "1000", some "abc"⟩ "c" "C"
        "cal" "Cal" none [] "u").isSome
      = (Ltm.build_slot ⟨["slot", "av"], some "1000", none⟩ "c" "C"
        "cal" "Cal" none [] "u").isSome := by
  constructor
  · have h := (ltm_build_slot_size_safe ⟨["slot", "av"], some "1000",
      some "-5"⟩ "c" "C" "cal" "Cal" none [] "u").1
      { calendar_id := "cal", calendar_label := "Cal", court_id := "c"
        court_label := "C", start := 1000, end_ := 4600
        duration_minutes := 60, price_eur := none, price_code := none
        source_url := "u", provider := some "ltm", sport := "tennis" }
      (by decide)
    exact h
  · have h := (ltm_build_slot_size_safe ⟨["slot", "av"], some "1000",
      some "abc"⟩ "c" "C" "cal" "Cal" none [] "u").2 (some "abc") none
    exact h

/-! ## Claim C6 -/

/-- The page budget as the spec's words prescribe it: the furthest future
offset divided by the 4-day page span, rounded up, with a minimum of 1.
Stated from the spec for comparison against `determine_pages`. -/
def spec_page_budget (max_diff : Int) : Int :=
  max 1 ((max_diff + 3) / 4)

theorem le_foldl_max (rest : List Int) : ∀ d : Int, d ≤ rest.foldl max d := by
  induction rest with
  | nil => intro d; exact le_refl d
  | cons x l ih => intro d; exact le_trans (le_max_left d x) (ih (max d x))

theorem page_diffs_nonneg (ds : List String) (today : YMD) :
    ∀ x ∈ page_diffs ds today, 0 ≤ x := by
  intro x hx
  simp only [page_diffs, List.mem_filterMap] at hx
  obtain ⟨s, -, hs⟩ := hx
  rcases hp : parseDateYMD s with - | target
  · rw [hp] at hs
    simp at hs
  · rw [hp] at hs
    simp only [] at hs
    split at hs
    · rename_i hle
      simp only [Option.some.injEq] at hs
      subst hs
      exact hle
    · simp at hs

/-- Counterexample to C6: a single requested date exactly 4 days out.
The code computes `4 // 4 + 1 = 2` pages, while the claimed
round-up-with-minimum-1 formula gives `max 1 ⌈4/4⌉ = 1`. -/
theorem determine_pages_cex :
    determine_pages (some ["2025-06-05"]) ⟨2025, 6, 1⟩ = 2
    ∧ page_diffs ["2025-06-05"] ⟨2025, 6, 1⟩ = [4]
    ∧ spec_page_budget 4 = 1
    ∧ (2 : Int) ≠ 1 := by
  refine ⟨by decide, by decide, by decide, by decide⟩

/-- C6 (amended): with at least one parseable non-past requested date, the
computed budget is `max_diff // 4 + 1` (the `max 1 ·` clamp being
vacuous); this agrees with the spec's ceiling formula exactly when
`max_diff` is zero or not a multiple of 4, and exceeds it by one page when
`max_diff` is a positive multiple of 4. (With no dates the budget is 1,
directly by the first branch of `determine_pages`.) -/
theorem determine_pages_amended (ds : List String) (today : YMD) (d : Int)
    (rest : List Int) (h : page_diffs ds today = d :: rest) :
    determine_pages (some ds) today = (rest.foldl max d) / 4 + 1
    ∧ ((¬ (4 : Int) ∣ rest.foldl max d ∨ rest.foldl max d = 0) →
        determine_pages (some ds) today = spec_page_budget (rest.foldl max d))
    ∧ ((4 : Int) ∣ rest.foldl max d ∧ 0 < rest.foldl max d →
        determine_pages (some ds) today
          = spec_page_budget (rest.foldl max d) + 1) := by
  have hd0 : 0 ≤ d := by
    apply page_diffs_nonneg ds today
    rw [h]
    exact List.mem_cons_self d rest
  have hm : d ≤ rest.foldl max d := le_foldl_max rest d
  have hm0 : 0 ≤ rest.foldl max d := le_trans hd0 hm
  have hcode : determine_pages (some ds) today
      = max 1 ((rest.foldl max d) / 4 + 1) := by
    cases ds with
    | nil => simp [page_diffs] at h
    | cons a l => simp only [determine_pages, h]
  have hmax : max 1 ((rest.foldl max d) / 4 + 1)
      = (rest.foldl max d) / 4 + 1 := by
    have h1 : 1 ≤ (rest.foldl max d) / 4 + 1 := by omega
    exact max_eq_right h1
  refine ⟨hcode.trans hmax, ?_, ?_⟩
  · intro hnd
    rw [hcode, hmax]
    unfold spec_page_budget
    rcases hnd with hnd | hz
    · have h1 : (rest.foldl max d + 3) / 4 = (rest.foldl max d) / 4 + 1 := by
        omega
      rw [h1]
      have h2 : 1 ≤ (rest.foldl max d) / 4 + 1 := by omega
      exact (max_eq_right h2).symm
    · rw [hz]
      decide
  · intro hdp
    rw [hcode, hmax]
    unfold spec_page_budget
    obtain ⟨hdvd, hpos⟩ := hdp
    have h1 : (rest.foldl max d + 3) / 4 = (rest.foldl max d) / 4 := by omega
    have h2 : 1 ≤ (rest.foldl max d) / 4 := by omega
    rw [h1, max_eq_right h2]

/-- Witness for C6 (amended) at the spec's own scenario: dates 5 and 9
days out give diffs `[5, 9]` and a budget of `9 // 4 + 1 = 3`. -/
theorem determine_pages_amended_witness :
    page_diffs ["2025-06-06", "2025-06-10"] ⟨2025, 6, 1⟩ = 5 :: [9]
    ∧ determine_pages (some ["2025-06-06", "2025-06-10"]) ⟨2025, 6, 1⟩
      = ([9].foldl max 5) / 4 + 1
    ∧ ([9].foldl max 5) / 4 + 1 = 3 :=
  ⟨by decide,
   (determine_pages_amended ["2025-06-06", "2025-06-10"] ⟨2025, 6, 1⟩ 5 [9]
     (by decide)).1,
   by decide⟩

/-! ## Claim C5 -/

/-- Characterization of the `_is_blocked` probe loop: with enough fuel it
reports exactly whether some 30-minute offset aligned to `cur` and short
of `e` is in the blocked set. -/
theorem Ev.blockedProbe_iff (blocked : List Ev.BlockedTriple)
    (day_key court_key : String) (e : Int) :
    ∀ (n : Nat) (cur : Int), e ≤ cur + 30 * n →
      (Ev.blockedProbe blocked day_key court_key e n cur = true ↔
        ∃ k : Nat, cur + 30 * k < e
          ∧ (some day_key, cur + 30 * k, court_key) ∈ blocked) := by
  intro n
  induction n with
  | zero =>
    intro cur hle
    constructor
    · intro h
      simp [Ev.blockedProbe] at h
    · rintro ⟨k, hk, -⟩
      exfalso
      have hk0 : (0 : Int) ≤ 30 * (k : Int) := by positivity
      simp only [Nat.cast_zero, mul_zero] at hle
      omega
  | succ n ih =>
    intro cur hle
    simp only [Ev.blockedProbe]
    by_cases hcur : cur < e
    · rw [if_pos hcur]
      by_cases hmem : (some day_key, cur, court_key) ∈ blocked
      · rw [if_pos hmem]
        constructor
        · intro
          refine ⟨0, by simpa using hcur, by simpa using hmem⟩
        · intro
          rfl
      · rw [if_neg hmem]
        have hle' : e ≤ cur + 30 + 30 * (n : Nat) := by
          push_cast at hle ⊢
          omega
        rw [ih (cur + 30) hle']
        constructor
        · rintro ⟨k, h1, h2⟩
          refine ⟨k + 1, ?_, ?_⟩
          · push_cast
            omega
          · have heq : cur + 30 * ((k + 1 : Nat) : Int)
                = cur + 30 + 30 * (k : Int) := by
              push_cast
              ring
            rw [heq]
            exact h2
        · rintro ⟨k, h1, h2⟩
          cases k with
          | zero =>
            exfalso
            simp only [Nat.cast_zero, mul_zero, add_zero] at h2
            exact hmem h2
          | succ k =>
            refine ⟨k, ?_, ?_⟩
            · push_cast at h1
              omega
            · have heq : cur + 30 + 30 * (k : Int)
                  = cur + 30 * ((k + 1 : Nat) : Int) := by
                push_cast
                ring
              rw [heq]
              exact h2
    · rw [if_neg hcur]
      constructor
      · intro h
        exact absurd h (by simp)
      · rintro ⟨k, h1, -⟩
        exfalso
        have hk0 : (0 : Int) ≤ 30 * (k : Int) := by positivity
        omega

/-- C5 (amended): the blocked-slot veto of the eversports adapter fires
exactly when some 30-minute offset *aligned to the candidate's own start*
and lying inside `[start, end)` is listed blocked for the court on the
day; a blocked 30-minute block that merely overlaps the span without
being start-aligned does not veto (see the counterexample). -/
theorem eversports_blocked_veto_amended (blocked : List Ev.BlockedTriple)
    (day_date : YMD) (court_key start_raw end_raw : String) (s e : Int)
    (hs : timeStrToMinutes start_raw = some s)
    (he : timeStrToMinutes end_raw = some e) :
    Ev.is_blocked blocked day_date court_key start_raw end_raw = true
      ↔ ∃ k : Nat, s + 30 * k < e
          ∧ (some day_date.isoformat, s + 30 * k, court_key) ∈ blocked := by
  unfold Ev.is_blocked
  rw [hs, he]
  apply Ev.blockedProbe_iff
  push_cast
  omega

def c5Cell : Ev.Cell :=
  { data_state := "free", data_original_title := none, title := none
    aria_label := none, data_start := some "1000", data_end := some "1100"
    data_price := none, data_rate := none, data_open := some "true" }

def c5Day : Ev.DayBlock :=
  { data_date := some "2025-06-01"
    rows := [{ header := some ⟨"Court 1", none, none⟩, data_area := none
               cells := [c5Cell] }] }

def c5Blocked : List Ev.BlockedTriple := [(some "2025-06-01", 615, "Court 1")]

def c5Fac : Ev.FacilityConfig :=
  { id := "12886", slug := "s", label := "Sporthotel"
    booking_url := "https://b", sports := [Ev.tennisSport] }

/-- Counterexample to C5: a blocked half-hour `[615, 645)` (10:15-10:45)
for "Court 1" on 2025-06-01 overlaps the candidate span `[600, 660)`
(10:00-11:00), yet — being misaligned with the candidate's start by 15
minutes — the adapter still emits the candidate. -/
theorem eversports_blocked_veto_cex :
    (some "2025-06-01", 615, "Court 1") ∈ c5Blocked
    ∧ (600 < 615 + 30 ∧ 615 < 660)
    ∧ (Ev.parse_calendar_html [c5Day] ⟨2025, 6, 1⟩ c5Blocked c5Fac
        Ev.tennisSport).map (fun s => s.court_label) = ["Court 1"] := by
  refine ⟨by decide, by decide, by decide⟩

/-- Witness for C5 (amended) at a concrete start-aligned block: a blocked
half-hour at 10:30 vetoes the 10:00-11:00 candidate. -/
theorem eversports_blocked_veto_amended_witness :
    Ev.is_blocked [(some "2025-06-01", 630, "Court 1")] ⟨2025, 6, 1⟩
      "Court 1" "1000" "1100" = true :=
  (eversports_blocked_veto_amended [(some "2025-06-01", 630, "Court 1")]
    ⟨2025, 6, 1⟩ "Court 1" "1000" "1100" 600 660 (by decide) (by decide)).mpr
    ⟨1, by decide, by decide⟩

/-! ## Claim C4 -/

theorem Dict.get_some_contains {κ α : Type} [DecidableEq κ]
    (d : List (κ × α)) (k : κ) (v : α) (h : Dict.get d k = some v) :
    Dict.contains d k = true := by
  induction d with
  | nil => simp [Dict.get] at h
  | cons p rest ih =>
    by_cases hp : p.1 = k
    · simp [Dict.contains, hp]
    · simp only [Dict.get, if_neg hp] at h
      simp [Dict.contains, hp, ih h]

/-- The colour-resolution loop never touches a code that already has a
value. -/
theorem Ltm.resolve_color_codes_stable (page_colors : List (String × String))
    (code : String) (v : Rat) :
    ∀ (lookup pcp cpm : List (String × Rat)),
      Dict.get lookup code = some v →
      Dict.get (Ltm.resolve_color_codes lookup pcp cpm page_colors) code
        = some v := by
  induction page_colors with
  | nil =>
    intro lookup pcp cpm h
    exact h
  | cons cc rest ih =>
    intro lookup pcp cpm h
    simp only [Ltm.resolve_color_codes, List.foldl_cons]
    by_cases hc : Dict.contains lookup cc.1 = true
    · rw [if_pos hc]
      exact ih lookup pcp cpm h
    · rw [if_neg hc]
      have hne : code ≠ cc.1 := by
        intro he
        exact hc (he ▸ Dict.get_some_contains lookup code v h)
      rcases h1 : Dict.get pcp cc.2 with - | w
      · rcases h2 : Dict.get cpm cc.2 with - | w
        · simp only [h1, h2]
          exact ih lookup pcp cpm h
        · simp only [h1, h2]
          apply ih
          rw [Dict.get_set_ne lookup cc.1 code w hne]
          exact h
      · simp only [h1]
        apply ih
        rw [Dict.get_set_ne lookup cc.1 code w hne]
        exact h

/-- One page's price bookkeeping leaves an already-resolved code's value
unchanged provided the page's own price box does not restate that code. -/
theorem Ltm.process_page_prices_stable (st : Ltm.PriceState)
    (price_map : List (String × Rat)) (page_colors : List (String × String))
    (code : String) (v : Rat)
    (hv : Dict.get st.price_lookup code = some v)
    (hnot : ∀ p ∈ price_map, p.1 ≠ code) :
    Dict.get (Ltm.process_page_prices st price_map page_colors).price_lookup
      code = some v := by
  simp only [Ltm.process_page_prices]
  have hupd : Dict.get
      (if price_map ≠ [] then Dict.update st.price_lookup price_map
       else st.price_lookup) code = some v := by
    split
    · rw [Dict.get_update_not_mem st.price_lookup price_map code hnot]
      exact hv
    · exact hv
  split
  · exact hupd
  · exact Ltm.resolve_color_codes_stable page_colors code v _ _ _ hupd

/-- C4 (amended): once a price code has obtained a value, later pages
whose price boxes do not restate a direct value for that code — in
particular pages carrying only colour information for it — leave the
resolved value unchanged; a later page that does restate a direct value
overwrites it (`price_lookup.update(price_map)` is unconditional, see the
counterexample). -/
theorem ltm_price_first_resolved_stable (st : Ltm.PriceState)
    (pages : List (List (String × Rat) × List (String × String)))
    (code : String) (v : Rat)
    (hv : Dict.get st.price_lookup code = some v)
    (hnot : ∀ pg ∈ pages, ∀ p ∈ pg.1, p.1 ≠ code) :
    Dict.get
      (pages.foldl (fun s pg => Ltm.process_page_prices s pg.1 pg.2)
        st).price_lookup code = some v := by
  induction pages generalizing st with
  | nil => exact hv
  | cons pg rest ih =>
    simp only [List.foldl_cons]
    apply ih
    · exact Ltm.process_page_prices_stable st pg.1 pg.2 code v hv
        (hnot pg (by simp))
    · intro q hq p hp
      exact hnot q (by simp [hq]) p hp

/-- Witness for C4 (amended): `price3` resolved to 9 survives a page
that only shows a colour for `price3` plus a direct value for `price7`. -/
theorem ltm_price_first_resolved_stable_witness :
    Dict.get
      ([( [("price7", (3 : Rat))], [("price3", "#ff0000")] )].foldl
        (fun s pg => Ltm.process_page_prices s pg.1 pg.2)
        { price_lookup := [("price3", (9 : Rat))]
          color_price_map := [] }).price_lookup "price3"
      = some (9 : Rat) :=
  ltm_price_first_resolved_stable
    { price_lookup := [("price3", (9 : Rat))], color_price_map := [] }
    [( [("price7", (3 : Rat))], [("price3", "#ff0000")] )] "price3"
    (9 : Rat) (by decide) (by decide)

def c4Page1 : Ltm.Page :=
  { h1 := none, price_map := [("price3", 9)], page_colors := []
    calendars := [], nav_data_href := some (some "?seite=2") }

def c4Page2 : Ltm.Page :=
  { h1 := none, price_map := [("price3", 12)], page_colors := []
    calendars := [], nav_data_href := none }

def c4Site : String → Ltm.Page × String := fun url =>
  if url = Ltm.BASE_URL then (c4Page1, Ltm.BASE_URL)
  else (c4Page2, Ltm.BASE_URL ++ "?seite=2")

/-- Counterexample to C4: after page 1 the code `price3` is resolved to 9,
but page 2's price box restates `price3` directly as 12 and
`price_lookup.update(price_map)` overwrites the resolved value. -/
theorem ltm_price_overwrite_cex :
    Dict.get (Ltm.seed_loop c4Site Ltm.BASE_URL
      { slots := [], seen := [], price_lookup := [], color_price_map := []
        fetched := [] } 1).price_lookup "price3" = some (9 : Rat)
    ∧ Dict.get (Ltm.seed_loop c4Site Ltm.BASE_URL
      { slots := [], seen := [], price_lookup := [], color_price_map := []
        fetched := [] } 2).price_lookup "price3" = some (12 : Rat)
    ∧ (9 : Rat) ≠ 12 := by
  refine ⟨by decide, by decide, by decide⟩

/-! ## Claim C7 -/

/-- C7: the LTM crawl terminates for every input. Per seed the
`range(pages)` loop fetches at most `fuel` pages; it stops after one fetch
when the page carries no next-navigation hint; and when every page's next
hint resolves to that page's own resolved URL (a next-link cycle of length
1), the visited-URL cycle guard fires after a single fetch — no extra
fetch of the cycled page occurs. -/
theorem ltm_crawl_terminates (site : String → Ltm.Page × String)
    (url : String) (st : Ltm.CrawlState) (fuel : Nat) :
    ((Ltm.seed_loop site url st fuel).fetched.length
      ≤ st.fetched.length + fuel)
    ∧ ((∀ u, Ltm.extract_next_href (site u).1.nav_data_href = none) →
      (Ltm.seed_loop site url st fuel).fetched.length
        ≤ st.fetched.length + 1)
    ∧ ((∀ u h, Ltm.extract_next_href (site u).1.nav_data_href = some h →
        Ltm.urljoin Ltm.BASE_URL h = (site u).2) →
      (Ltm.seed_loop site url st fuel).fetched.length
        ≤ st.fetched.length + 1) := by
  refine ⟨?_, ?_, ?_⟩
  · induction fuel generalizing url st with
    | zero => simp [Ltm.seed_loop]
    | succ fuel ih =>
      simp only [Ltm.seed_loop]
      split
      · omega
      · split
        · simp only [List.length_append, List.length_singleton]
          omega
        · split
          · simp only [List.length_append, List.length_singleton]
            omega
          · refine le_trans (ih _ _) ?_
            simp only [List.length_append, List.length_singleton]
            omega
  · intro hnone
    cases fuel with
    | zero => simp [Ltm.seed_loop]
    | succ fuel =>
      simp only [Ltm.seed_loop]
      split
      · omega
      · rw [hnone url]
        simp only [List.length_append, List.length_singleton]
        omega
  · intro hcyc
    cases fuel with
    | zero => simp [Ltm.seed_loop]
    | succ fuel =>
      simp only [Ltm.seed_loop]
      split
      · omega
      · rcases hnext : Ltm.extract_next_href (site url).1.nav_data_href
          with - | h
        · simp only [List.length_append, List.length_singleton]
          omega
        · have habs : Ltm.urljoin Ltm.BASE_URL h = (site url).2 :=
            hcyc url h hnext
          have hmem : (st.seen ++ [(site url).2]).contains (site url).2
              = true := by
            simp
          simp only [habs, hmem, if_true, List.length_append,
            List.length_singleton]
          omega

def ltmEmptyState : Ltm.CrawlState :=
  { slots := [], seen := [], price_lookup := [], color_price_map := []
    fetched := [] }

def c7SiteNoNext : String → Ltm.Page × String := fun _ =>
  (c4Page2, "https://r")

def c7SiteSelf : String → Ltm.Page × String := fun _ =>
  ({ c4Page2 with nav_data_href := some (some "?x") },
   Ltm.BASE_URL ++ "?x")

/-- Witness for C7 at two concrete sites: a site with no next hints is
fetched once within a budget of 5, and a site whose next hint always
resolves to the fetched page itself (cycle of length 1) is also fetched
only once — the cycle guard fires with no extra fetch. -/
theorem ltm_crawl_terminates_witness :
    ((Ltm.seed_loop c7SiteNoNext Ltm.BASE_URL ltmEmptyState 5).fetched.length
      ≤ ltmEmptyState.fetched.length + 1)
    ∧ ((Ltm.seed_loop c7SiteSelf Ltm.BASE_URL ltmEmptyState 5).fetched.length
      ≤ ltmEmptyState.fetched.length + 1) := by
  constructor
  · exact (ltm_crawl_terminates c7SiteNoNext Ltm.BASE_URL ltmEmptyState 5).2.1
      (fun u => rfl)
  · apply (ltm_crawl_terminates c7SiteSelf Ltm.BASE_URL ltmEmptyState 5).2.2
    intro u h hh
    have he : Ltm.extract_next_href (c7SiteSelf u).1.nav_data_href
        = some "?x" := rfl
    rw [he] at hh
    injection hh with hx
    rw [← hx]
    rfl

/-! ## Claim C8 -/

/-- A blocked-feed entry the entry loop can process without raising: its
`start` field (if any) is a string or null, and its `date` field (if any)
is hashable or falsy. Non-dict entries are always safe (skipped). -/
def Ev.entrySafe : Ev.Json → Bool
  | .jobj fields =>
    (match (Dict.get fields "start").getD (.jstr "") with
     | .jstr _ => true
     | .jnull => true
     | _ => false)
    && (Ev.jsonHashable ((Dict.get fields "date").getD .jnull)
        || Ev.jsonFalsy ((Dict.get fields "date").getD .jnull))
  | _ => true

theorem Ev.addBlockedEntries_safe :
    ∀ (entries : List Ev.Json) (acc : List Ev.BlockedTriple),
      entries.all Ev.entrySafe = true →
      ∃ l, Ev.addBlockedEntries entries acc = .ok l := by
  intro entries
  induction entries with
  | nil =>
    intro acc _
    exact ⟨acc, rfl⟩
  | cons e rest ih =>
    intro acc h
    simp only [List.all_cons, Bool.and_eq_true] at h
    obtain ⟨he, hrest⟩ := h
    cases e with
    | jobj fields =>
      simp only [Ev.entrySafe, Bool.and_eq_true] at he
      obtain ⟨hstart, hdate⟩ := he
      have hok : ∃ m, Ev.timeFieldToMinutes
          ((Dict.get fields "start").getD (.jstr "")) = .ok m := by
        rcases hj : (Dict.get fields "start").getD (.jstr "")
          with - | b | n | s | xs | fs
        · exact ⟨none, rfl⟩
        · rw [hj] at hstart
          simp at hstart
        · rw [hj] at hstart
          simp at hstart
        · exact ⟨timeStrToMinutes s, rfl⟩
        · rw [hj] at hstart
          simp at hstart
        · rw [hj] at hstart
          simp at hstart
      obtain ⟨m, hm⟩ := hok
      simp only [Ev.addBlockedEntries, hm]
      rcases m with - | sm
      · exact ih acc hrest
      · rcases hc : (match Dict.get fields "court" with
          | some .jnull => none
          | x => x) with - | c
        · rw [hc]
          exact ih acc hrest
        · rw [hc]
          simp only []
          by_cases hf : Ev.jsonFalsy ((Dict.get fields "date").getD .jnull)
              = true
          · rw [if_pos hf]
            exact ih acc hrest
          · rw [if_neg hf]
            have hh : Ev.jsonHashable ((Dict.get fields "date").getD .jnull)
                = true := by
              rcases Bool.or_eq_true_iff.mp hdate with h1 | h1
              · exact h1
              · exact absurd h1 hf
            rw [if_pos hh]
            exact ih _ hrest
    | jnull =>
      simp only [Ev.addBlockedEntries]
      exact ih acc hrest
    | jbool b =>
      simp only [Ev.addBlockedEntries]
      exact ih acc hrest
    | jnum n =>
      simp only [Ev.addBlockedEntries]
      exact ih acc hrest
    | jstr s =>
      simp only [Ev.addBlockedEntries]
      exact ih acc hrest
    | jarr xs =>
      simp only [Ev.addBlockedEntries]
      exact ih acc hrest

/-- C8 (amended): a failed fetch or JSON decode of the blocked feed, and
an empty court set, both yield the empty blocked set without raising;
and for a decoded payload whose entries are well-typed (string-or-absent
`start`, hashable-or-falsy `date`), the entry loop never raises, skipping
non-dict entries and entries missing a start, court, or date. However, an
entry whose `start` is a non-null non-string JSON value (or whose `date`
is an unhashable container) raises a `TypeError` that escapes
`_fetch_blocked_slots` itself — see the counterexample — and is caught
only by the adapter's outer per-combination handler. -/
theorem eversports_blocked_feed_safe (court_ids : List String)
    (response : Option Ev.Json) :
    (response = none →
      Ev.fetch_blocked_slots court_ids response = .ok [])
    ∧ (court_ids = [] →
      Ev.fetch_blocked_slots court_ids response = .ok [])
    ∧ (∀ payload, response = some payload →
        (Ev.slotEntriesOf payload).all Ev.entrySafe = true →
        ∃ l, Ev.fetch_blocked_slots court_ids response = .ok l) := by
  refine ⟨?_, ?_, ?_⟩
  · intro h
    subst h
    unfold Ev.fetch_blocked_slots
    split
    · rfl
    · rfl
  · intro h
    subst h
    rfl
  · intro payload hp hsafe
    subst hp
    unfold Ev.fetch_blocked_slots
    split
    · exact ⟨[], rfl⟩
    · exact Ev.addBlockedEntries_safe (Ev.slotEntriesOf payload) [] hsafe

def c8GoodPayload : Ev.Json :=
  .jobj [("slots", .jarr
    [ .jobj [("start", .jstr "1130"), ("court", .jstr "5"),
             ("date", .jstr "2025-06-01")],
      .jobj [("court", .jstr "5")],
      .jnum 7 ])]

/-- Witness for C8 (amended): a failed fetch yields the empty set, and a
payload mixing a well-formed entry, an entry missing fields, and a
non-dict entry is processed without raising. -/
theorem eversports_blocked_feed_safe_witness :
    Ev.fetch_blocked_slots ["5"] none = .ok []
    ∧ ∃ l, Ev.fetch_blocked_slots ["5"] (some c8GoodPayload) = .ok l :=
  ⟨(eversports_blocked_feed_safe ["5"] none).1 rfl,
   (eversports_blocked_feed_safe ["5"] (some c8GoodPayload)).2.2
     c8GoodPayload rfl (by decide)⟩

def c8BadPayload : Ev.Json :=
  .jobj [("slots", .jarr
    [ .jobj [("start", .jnum 1200), ("court", .jstr "5"),
             ("date", .jstr "2025-01-01")] ])]

/-- Counterexample to C8: an entry whose `start` is the JSON number 1200
(rather than the string "1200") reaches `len(raw)` inside
`_time_str_to_minutes` and raises a `TypeError` that `_fetch_blocked_slots`
does not catch — it does not return an empty or partial blocked set. -/
theorem eversports_blocked_feed_raises_cex :
    Ev.fetch_blocked_slots ["5"] (some c8BadPayload)
      = .error "TypeError: int has no len" := by
  rfl

/-! ## Claim C3 -/

/-- The adapter-level dedup key `(calendar_id, court_id, start)`. -/
def slotKeyTriple (s : Slot) : String × String × Int :=
  (s.calendar_id, s.court_id, s.start)

theorem foldl_inv {β σ : Type} (I : σ → Prop) (f : σ → β → σ)
    (hf : ∀ acc b, I acc → I (f acc b)) :
    ∀ (l : List β) (acc : σ), I acc → I (l.foldl f acc) := by
  intro l
  induction l with
  | nil =>
    intro acc h
    exact h
  | cons x xs ih =>
    intro acc h
    exact ih (f acc x) (hf acc x h)

/-- Invariant of the eversports dedup accumulator: emitted slots have
pairwise-distinct keys, and every emitted key is recorded in `seen`. -/
def DedupInv (acc : List Slot × List (String × String × Int)) : Prop :=
  acc.1.Pairwise (fun a b => slotKeyTriple a ≠ slotKeyTriple b)
  ∧ ∀ s ∈ acc.1, slotKeyTriple s ∈ acc.2

theorem dedup_step_inv (acc : List Slot × List (String × String × Int))
    (slot : Slot) (h : DedupInv acc) :
    DedupInv
      (if acc.2.contains (slot.calendar_id, slot.court_id, slot.start)
       then acc
       else (acc.1 ++ [slot],
         acc.2 ++ [(slot.calendar_id, slot.court_id, slot.start)])) := by
  split
  · exact h
  · rename_i hcon
    obtain ⟨hpw, hmem⟩ := h
    have hnot : (slot.calendar_id, slot.court_id, slot.start) ∉ acc.2 := by
      simpa using hcon
    constructor
    · rw [List.pairwise_append]
      refine ⟨hpw, List.pairwise_singleton _ _, ?_⟩
      intro a ha b hb
      simp only [List.mem_singleton] at hb
      subst hb
      intro hk
      have hmemA := hmem a ha
      rw [hk] at hmemA
      exact hnot hmemA
    · intro s hs
      rcases List.mem_append.mp hs with h1 | h1
      · exact List.mem_append.mpr (Or.inl (hmem s h1))
      · simp only [List.mem_singleton] at h1
        subst h1
        exact List.mem_append.mpr (Or.inr (by simp [slotKeyTriple]))

/-- C3 (amended): the eversports adapter deduplicates on
`(calendar_id, court_id, start)` across all its combinations, keeping the
first occurrence, so its output carries pairwise-distinct keys; the LTM
adapter performs no such deduplication — it only guards against revisiting
resolved URLs — and can emit several slots with an identical key (see the
counterexample). -/
theorem eversports_dedup_unique (today : YMD) (dates : Option (List YMD))
    (outcome : Ev.FacilityConfig → YMD → Ev.SportMeta →
      Option Ev.ComboPage) :
    (Ev.fetch_slots today dates outcome).Pairwise
      (fun a b => slotKeyTriple a ≠ slotKeyTriple b) := by
  unfold Ev.fetch_slots
  refine (foldl_inv DedupInv _ ?_ Ev.FACILITIES ([], [])
    ⟨List.Pairwise.nil, by simp⟩).1
  intro acc facility hacc
  refine foldl_inv DedupInv _ ?_ _ acc hacc
  intro acc2 current_date hacc2
  refine foldl_inv DedupInv _ ?_ _ acc2 hacc2
  intro acc3 sport hacc3
  cases houtcome : outcome facility current_date sport with
  | none =>
    simp only [houtcome]
    exact hacc3
  | some page =>
    simp only [houtcome]
    cases hbl : Ev.fetch_blocked_slots (Ev.extract_court_ids page.days)
        page.blocked_response with
    | error e =>
      simp only [hbl]
      exact hacc3
    | ok blocked =>
      simp only [hbl]
      refine foldl_inv DedupInv _ ?_ _ acc3 hacc3
      intro acc4 slot hacc4
      exact dedup_step_inv acc4 slot hacc4

def c3Tag : Ltm.SlotTag := ⟨["slot", "av"], some "1000", none⟩

def c3Cal : Ltm.Calendar :=
  { data_cid := some "5", head_days := [some "900"]
    body_days := [{ courts_header := some ["Court A"]
                    court_columns := [("7", [c3Tag, c3Tag])] }] }

def c3Page : Ltm.Page :=
  { h1 := some "LTM", price_map := [], page_colors := []
    calendars := [c3Cal], nav_data_href := none }

def c3Site : String → Ltm.Page × String := fun _ => (c3Page, "https://r")

/-- Counterexample to C3: the LTM adapter emits duplicate
`(calendar_id, court_id, start)` keys — two identical available cells in
one court column (and the same page served for both seeds) yield four
slots with one and the same key. -/
theorem ltm_no_dedup_cex :
    ((Ltm.fetch_slots c3Site 1).map slotKeyTriple)
      = [("5", "7", 1000), ("5", "7", 1000), ("5", "7", 1000),
         ("5", "7", 1000)]
    ∧ ¬ (Ltm.fetch_slots c3Site 1).Pairwise
      (fun a b => slotKeyTriple a ≠ slotKeyTriple b) := by
  refine ⟨by decide, by decide⟩

/-! ## Claim C2 -/

def c2Tag1 : Ltm.SlotTag := ⟨["slot", "av"], some "2000", none⟩

def c2Tag2 : Ltm.SlotTag := ⟨["slot", "av"], some "1000", none⟩

def c2Cal : Ltm.Calendar :=
  { data_cid := some "5", head_days := [some "900"]
    body_days := [{ courts_header := some ["Court A"]
                    court_columns := [("7", [c2Tag1, c2Tag2])] }] }

def c2Page : Ltm.Page :=
  { h1 := some "LTM", price_map := [], page_colors := []
    calendars := [c2Cal], nav_data_href := none }

def c2Site : String → Ltm.Page × String := fun _ => (c2Page, "https://r")

/-- Counterexample to C2: `collect_slots` returns slots in adapter
discovery order, not sorted — a page listing a 2000-starting cell before a
1000-starting cell yields an output whose starts are out of order. -/
theorem collect_not_sorted_cex :
    (collect_slots c2Site 1 (fun _ _ _ => none) [] ⟨2025, 6, 1⟩ 0
      (some []) "tennis").map (fun s => s.start)
      = [2000, 1000, 2000, 1000]
    ∧ ¬ (collect_slots c2Site 1 (fun _ _ _ => none) [] ⟨2025, 6, 1⟩ 0
      (some []) "tennis").Pairwise slotKeyLE := by
  refine ⟨by decide, by decide⟩

/-- C2 (amended): `collect_slots` itself returns the merged, filtered
slots in adapter discovery order; the deterministic ascending sort by
`(start, court_label, calendar_id, court_id)` — lexicographic, ties broken
in that order — is applied by the caller `app.load_slots` (line 103) after
its optional date filter, and the sorted sequence is a permutation of the
filtered input. -/
theorem load_slots_post_sorted (slots : List Slot)
    (filter_dates : Option (List String)) :
    (load_slots_post slots filter_dates).Pairwise slotKeyLE
    ∧ (load_slots_post slots none).Perm slots := by
  constructor
  · exact List.sorted_insertionSort slotKeyLE _
  · exact List.perm_insertionSort slotKeyLE slots

/-! ## Claim C9 -/

/-- C9: for any sport other than `"tennis"` and `"padel"`, `collect_slots`
runs no adapter and returns the empty list whatever the adapters would
have produced; and every slot in any `collect_slots` output carries the
requested sport tag (the final filter requires `slot.sport == sport`). -/
theorem collect_sport_gate (site : String → Ltm.Page × String) (pages : Nat)
    (evOutcome : Ev.FacilityConfig → YMD → Ev.SportMeta →
      Option Ev.ComboPage)
    (padelSlots : List Slot) (today : YMD) (now : Int)
    (dates : Option (List YMD)) (sport : String) :
    (sport ≠ "tennis" → sport ≠ "padel" →
      collect_slots site pages evOutcome padelSlots today now dates sport
        = [])
    ∧ ∀ s ∈ collect_slots site pages evOutcome padelSlots today now dates
        sport, s.sport = sport := by
  constructor
  · intro h1 h2
    unfold collect_slots
    rw [if_neg h1, if_neg h2]
    rfl
  · intro s hs
    unfold collect_slots at hs
    rw [List.mem_filter] at hs
    obtain ⟨-, hpred⟩ := hs
    simp only [Bool.and_eq_true, decide_eq_true_eq] at hpred
    exact hpred.2

/-- Witness for C9 at the sport `"squash"`: no adapter output reaches the
result. -/
theorem collect_sport_gate_witness :
    collect_slots c2Site 1 (fun _ _ _ => none) [] ⟨2025, 6, 1⟩ 0
      (some []) "squash" = [] :=
  (collect_sport_gate c2Site 1 (fun _ _ _ => none) [] ⟨2025, 6, 1⟩ 0
    (some []) "squash").1 (by decide) (by decide)

/-! ## Claim C1 -/

/-- Validity carried by every slot the LTM parser yields: positive span
and the tennis sport tag. -/
def SlotValid (s : Slot) : Prop :=
  s.start < s.end_ ∧ s.sport = "tennis"

theorem Ltm.parse_day_slots_valid (head_dt : Option String)
    (body : Ltm.DayBody) (price_map : List (String × Rat))
    (calendar_id calendar_label source_url : String) :
    ∀ s ∈ Ltm.parse_day_slots head_dt body price_map calendar_id
      calendar_label source_url, SlotValid s := by
  intro s hs
  unfold Ltm.parse_day_slots at hs
  rcases hh : body.courts_header with - | labels
  · rw [hh] at hs
    simp at hs
  · rw [hh] at hs
    simp only [List.mem_flatMap, List.mem_filterMap] at hs
    obtain ⟨lc, -, tag, -, htag⟩ := hs
    obtain ⟨h1, -, -, -, -, h2⟩ := Ltm.build_slot_valid tag lc.2.1 lc.1
      calendar_id calendar_label _ price_map source_url s htag
    exact ⟨h1, h2⟩

theorem Ltm.parse_available_slots_valid (cal : Ltm.Calendar)
    (price_map : List (String × Rat)) (calendar_label source_url : String) :
    ∀ s ∈ Ltm.parse_available_slots cal price_map calendar_label source_url,
      SlotValid s := by
  intro s hs
  unfold Ltm.parse_available_slots at hs
  split at hs
  · simp at hs
  · simp only [List.mem_flatMap] at hs
    obtain ⟨hb, -, hmem⟩ := hs
    exact Ltm.parse_day_slots_valid hb.1 hb.2 price_map _ calendar_label
      source_url s hmem

theorem Ltm.seed_loop_valid (site : String → Ltm.Page × String) :
    ∀ (fuel : Nat) (url : String) (st : Ltm.CrawlState),
      ∀ s ∈ (Ltm.seed_loop site url st fuel).slots,
        s ∈ st.slots ∨ SlotValid s := by
  intro fuel
  induction fuel with
  | zero =>
    intro url st s hs
    exact Or.inl hs
  | succ fuel ih =>
    intro url st s hs
    simp only [Ltm.seed_loop] at hs
    split at hs
    · exact Or.inl hs
    · have hstep : ∀ t ∈ st.slots ++ (site url).1.calendars.flatMap
          (fun cal => Ltm.parse_available_slots cal
            (Ltm.process_page_prices
              { price_lookup := st.price_lookup
                color_price_map := st.color_price_map }
              (site url).1.price_map (site url).1.page_colors).price_lookup
            ((site url).1.h1.getD "Tennis Booking") (site url).2),
          t ∈ st.slots ∨ SlotValid t := by
        intro t ht
        rcases List.mem_append.mp ht with h1 | h1
        · exact Or.inl h1
        · simp only [List.mem_flatMap] at h1
          obtain ⟨cal, -, hmem⟩ := h1
          exact Or.inr (Ltm.parse_available_slots_valid cal _ _ _ t hmem)
      split at hs
      · exact hstep s hs
      · split at hs
        · exact hstep s hs
        · rcases ih _ _ s hs with h1 | h1
          · exact hstep s h1
          · exact Or.inr h1

theorem Ltm.fetch_slots_valid (site : String → Ltm.Page × String)
    (pages : Nat) :
    ∀ s ∈ Ltm.fetch_slots site pages, SlotValid s := by
  intro s hs
  unfold Ltm.fetch_slots at hs
  simp only [Ltm.SEED_URLS, List.foldl_cons, List.foldl_nil] at hs
  rcases Ltm.seed_loop_valid site pages _ _ s hs with h1 | h1
  · rcases Ltm.seed_loop_valid site pages _ _ s h1 with h2 | h2
    · simp at h2
    · exact h2
  · exact h1

theorem parseTimeHHMM_bounds (s : String) (m : Int)
    (h : parseTimeHHMM s = some m) : 0 ≤ m ∧ m ≤ 1439 := by
  simp only [parseTimeHHMM] at h
  split at h
  · split at h
    · split at h
      · rename_i hrange
        simp only [Option.some.injEq] at h
        subst h
        obtain ⟨h23, h59⟩ := hrange
        constructor
        · positivity
        · have h0 : '0'.toNat = 48 := rfl
          push_cast
          omega
      · simp at h
    · simp at h
  · simp at h

theorem Ev.build_slot_ok (cell : Ev.Cell) (day_date : YMD)
    (court_label court_id calendar_label : String)
    (facility : Ev.FacilityConfig) (sport : Ev.SportMeta) (s : Slot)
    (h : Ev.build_slot cell day_date court_label court_id calendar_label
      facility sport = some s) :
    SlotValid s := by
  simp only [Ev.build_slot] at h
  split at h
  · exact absurd h (by simp)
  · split at h
    · exact absurd h (by simp)
    · split at h
      · exact absurd h (by simp)
      · split at h
        · exact absurd h (by simp)
        · split at h
          · rename_i smin emin hsm hem
            obtain ⟨hs0, hs1⟩ := parseTimeHHMM_bounds _ smin hsm
            obtain ⟨he0, he1⟩ := parseTimeHHMM_bounds _ emin hem
            split at h
            · exact absurd h (by simp)
            · split at h
              · exact absurd h (by simp)
              · simp only [Option.some.injEq] at h
                subst h
                refine ⟨?_, rfl⟩
                simp only []
                split
                · rename_i hle
                  omega
                · rename_i hgt
                  omega
          · exact absurd h (by simp)

theorem Ev.parse_calendar_html_valid (days : List Ev.DayBlock)
    (fallback_date : YMD) (blocked_slots : List Ev.BlockedTriple)
    (facility : Ev.FacilityConfig) (sport : Ev.SportMeta) :
    ∀ s ∈ Ev.parse_calendar_html days fallback_date blocked_slots facility
      sport, SlotValid s := by
  intro s hs
  simp only [Ev.parse_calendar_html, List.mem_flatMap] at hs
  obtain ⟨day, -, row, -, hs⟩ := hs
  rcases hh : row.header with - | hdr
  · rw [hh] at hs
    simp at hs
  · rw [hh] at hs
    simp only [List.mem_filterMap] at hs
    obtain ⟨kc, -, hkc⟩ := hs
    split at hkc
    · exact absurd hkc (by simp)
    · exact Ev.build_slot_ok kc.2 _ _ _ _ facility sport s hkc

theorem foldl_inv_mem {β σ : Type} (I : σ → Prop) (f : σ → β → σ) :
    ∀ (l : List β) (acc : σ),
      (∀ acc b, b ∈ l → I acc → I (f acc b)) → I acc → I (l.foldl f acc) := by
  intro l
  induction l with
  | nil =>
    intro acc _ h
    exact h
  | cons x xs ih =>
    intro acc hf h
    exact ih (f acc x) (fun a b hb ha => hf a b (by simp [hb]) ha)
      (hf acc x (by simp) h)

/-- Invariant of the eversports accumulator for C1: every accumulated
slot is valid. -/
def AllValid (acc : List Slot × List (String × String × Int)) : Prop :=
  ∀ t ∈ acc.1, SlotValid t

theorem Ev.fetch_slots_ok (today : YMD) (dates : Option (List YMD))
    (outcome : Ev.FacilityConfig → YMD → Ev.SportMeta →
      Option Ev.ComboPage) :
    ∀ s ∈ Ev.fetch_slots today dates outcome, SlotValid s := by
  unfold Ev.fetch_slots
  intro s hs
  refine (foldl_inv AllValid _ ?_ Ev.FACILITIES ([], [])
    (fun t ht => absurd ht (by simp))) s hs
  intro acc facility hacc
  refine foldl_inv AllValid _ ?_ _ acc hacc
  intro acc2 current_date hacc2
  refine foldl_inv AllValid _ ?_ _ acc2 hacc2
  intro acc3 sport hacc3
  cases houtcome : outcome facility current_date sport with
  | none =>
    simp only [houtcome]
    exact hacc3
  | some page =>
    simp only [houtcome]
    cases hbl : Ev.fetch_blocked_slots (Ev.extract_court_ids page.days)
        page.blocked_response with
    | error e =>
      simp only [hbl]
      exact hacc3
    | ok blocked =>
      simp only [hbl]
      refine foldl_inv_mem AllValid _
        (Ev.parse_calendar_html page.days current_date blocked facility
          sport) acc3 ?_ hacc3
      intro acc4 slot hslot hacc4
      have hv : SlotValid slot :=
        Ev.parse_calendar_html_valid page.days current_date blocked facility
          sport slot hslot
      split
      · exact hacc4
      · intro t ht
        rcases List.mem_append.mp ht with h1 | h1
        · exact hacc4 t h1
        · simp only [List.mem_singleton] at h1
          subst h1
          exact hv

/-- C1: for every invocation of `collect_slots` — any LTM site content,
any eversports combination outcomes, any (spec-modelled, invariant-obeying)
padel adapter output, any `now` — every slot in the returned list ends
strictly after `now` and strictly after its own start. -/
theorem collect_slots_valid (site : String → Ltm.Page × String)
    (pages : Nat)
    (evOutcome : Ev.FacilityConfig → YMD → Ev.SportMeta →
      Option Ev.ComboPage)
    (padelSlots : List Slot) (today : YMD) (now : Int)
    (dates : Option (List YMD)) (sport : String)
    (hp : padeldome_output_ok padelSlots) :
    ∀ s ∈ collect_slots site pages evOutcome padelSlots today now dates
      sport, now < s.end_ ∧ s.start < s.end_ := by
  intro s hs
  unfold collect_slots at hs
  rw [List.mem_filter] at hs
  obtain ⟨hmem, hpred⟩ := hs
  simp only [Bool.and_eq_true, decide_eq_true_eq] at hpred
  refine ⟨hpred.1, ?_⟩
  split at hmem
  · rcases List.mem_append.mp hmem with h1 | h1
    · exact (Ltm.fetch_slots_valid site pages s h1).1
    · exact (Ev.fetch_slots_ok today _ evOutcome s h1).1
  · split at hmem
    · exact hp s hmem
    · simp at hmem

def padelSlotW : Slot :=
  { calendar_id := "pd", calendar_label := "Reservierung Padel ERDBERG"
    court_id := "1", court_label := "Padel 1", start := 0, end_ := 3600
    duration_minutes := 60, price_eur := none, price_code := none
    source_url := "https://p", provider := some "padeldome"
    sport := "padel" }

/-- Witness for C1 at a concrete padel invocation whose output contains
`padelSlotW`. -/
theorem collect_slots_valid_witness :
    padeldome_output_ok [padelSlotW]
    ∧ ((10 : Int) < padelSlotW.end_ ∧ padelSlotW.start < padelSlotW.end_) :=
  have hp : padeldome_output_ok [padelSlotW] := by
    unfold padeldome_output_ok
    decide
  ⟨hp,
   collect_slots_valid c2Site 1 (fun _ _ _ => none) [padelSlotW]
     ⟨2025, 6, 1⟩ 10 (some []) "padel" hp padelSlotW (by decide)⟩
